import Mathlib

/-!
Shallow embedding of the traefik-maintenance middleware (src/main.go).

The middleware's own functions (`New`, `ServeHTTP`, `maintenanceEnabled`,
`checkIgnore`, `ipAddrFromRemoteAddr`, `requestGetRemoteAddress`,
`checkDenyUri`) are translated directly from the Go source.  The Go
standard-library routines they call (`net.ParseIP`, `net.ParseCIDR`,
`(*net.IPNet).Contains`, `strings.Split`, `strings.TrimSpace`,
`strings.LastIndex`) are modelled byte-for-byte after the `net` and
`strings` packages; filesystem probes (`os.Stat`, `os.ReadFile`), the
response writer and the regexp engine are modelled by explicit oracles,
since their outcomes are environment-dependent.

Representation note: Go stores IPv4 addresses in the 16-byte
IPv4-in-IPv6 form and `Contains`/`Mask` normalise with `To4`; here IPv4
addresses are the 4-byte form directly, which `Contains` observes
identically.  IPv6 zone suffixes (`%zone`) are treated as parse
failures; they cannot occur in the inputs any claim is about.
-/

set_option autoImplicit false

namespace Traefik

/-! ### Model of the pieces of the Go `net` package used by the plugin -/

/-- Overflow cutoff used by Go's `dtoi`/`xtoi` (net/parse.go): `0xFFFFFF`. -/
def bigGo : Nat := 0xFFFFFF

/-- Worker for `dtoi`: accumulated value `n`, characters consumed `i`. -/
def dtoiGo : List Char → Nat → Nat → Nat × Nat × Bool
  | [], n, i => if i = 0 then (0, 0, false) else (n, i, true)
  | c :: rest, n, i =>
    if '0' ≤ c ∧ c ≤ '9' then
      let m := n * 10 + (c.toNat - '0'.toNat)
      if bigGo ≤ m then (bigGo, i + 1, false)
      else dtoiGo rest m (i + 1)
    else if i = 0 then (0, 0, false) else (n, i, true)

/-- Go `dtoi`: decimal prefix of `s`; returns (value, chars consumed, ok). -/
def dtoi (s : List Char) : Nat × Nat × Bool := dtoiGo s 0 0

/-- Value of a hexadecimal digit character, if any. -/
def hexDigit (c : Char) : Option Nat :=
  if '0' ≤ c ∧ c ≤ '9' then some (c.toNat - '0'.toNat)
  else if 'a' ≤ c ∧ c ≤ 'f' then some (c.toNat - 'a'.toNat + 10)
  else if 'A' ≤ c ∧ c ≤ 'F' then some (c.toNat - 'A'.toNat + 10)
  else none

/-- Worker for `xtoi`. -/
def xtoiGo : List Char → Nat → Nat → Nat × Nat × Bool
  | [], n, i => if i = 0 then (0, i, false) else (n, i, true)
  | c :: rest, n, i =>
    match hexDigit c with
    | none => if i = 0 then (0, i, false) else (n, i, true)
    | some d =>
      let m := n * 16 + d
      if bigGo ≤ m then (0, i, false)
      else xtoiGo rest m (i + 1)

/-- Go `xtoi`: hexadecimal prefix of `s`; returns (value, chars consumed, ok). -/
def xtoi (s : List Char) : Nat × Nat × Bool := xtoiGo s 0 0

/-- One dotted-decimal field of an IPv4 address: value and remaining input.
Mirrors the body of Go's `parseIPv4` loop: at most 255, no leading zeros. -/
def parseV4Field (s : List Char) : Option (Nat × List Char) :=
  let r := dtoi s
  if ¬ r.2.2 ∨ 0xFF < r.1 then none
  else if 1 < r.2.1 ∧ s.headD ' ' = '0' then none
  else some (r.1, s.drop r.2.1)

/-- Consume a literal dot. -/
def expectDot : List Char → Option (List Char)
  | '.' :: r => some r
  | _ => none

/-- Go `parseIPv4`: four dotted-decimal fields consuming the whole input. -/
def parseIPv4Go (s : List Char) : Option (List Nat) := do
  let (a, s1) ← parseV4Field s
  let s1b ← expectDot s1
  let (b, s2) ← parseV4Field s1b
  let s2b ← expectDot s2
  let (c, s3) ← parseV4Field s2b
  let s3b ← expectDot s3
  let (d, s4) ← parseV4Field s3b
  if s4 = [] then pure [a, b, c, d] else none

/-- Post-loop phase of Go `parseIPv6`: leftover input must be empty, and a
`::` ellipsis (recorded position `ell`) expands with zero bytes to reach 16
bytes.  The two sanity guards (`e ≤ acc.length`, `acc.length = 16`) always
hold on the paths `v6Loop` takes; Go relies on them implicitly. -/
def v6Finish (s : List Char) (acc : List Nat) (ell : Option Nat) : Option (List Nat) :=
  if s ≠ [] then none
  else if acc.length < 16 then
    match ell with
    | none => none
    | some e =>
      if e ≤ acc.length then
        some (acc.take e ++ List.replicate (16 - acc.length) 0 ++ acc.drop e)
      else none
  else if acc.length = 16 then
    match ell with
    | none => some acc
    | some _ => none
  else none

/-- Main loop of Go `parseIPv6`: `acc` is the bytes parsed so far, `ell` the
position of a `::` ellipsis if one was seen.  Each 16-bit group appends two
bytes; a trailing embedded IPv4 address appends four. -/
def v6Loop : Nat → List Char → List Nat → Option Nat → Option (List Nat)
  | 0, _, _, _ => none
  | fuel + 1, s, acc, ell =>
    if 16 ≤ acc.length then v6Finish s acc ell
    else
      let r := xtoi s
      if ¬ r.2.2 ∨ 0xFFFF < r.1 then none
      else if r.2.1 < s.length ∧ s.getD r.2.1 ' ' = '.' then
        if (ell = none ∧ acc.length ≠ 12) ∨ 16 < acc.length + 4 then none
        else
          match parseIPv4Go s with
          | none => none
          | some ip4 => v6Finish [] (acc ++ ip4) ell
      else
        let acc2 := acc ++ [r.1 / 256, r.1 % 256]
        let s2 := s.drop r.2.1
        if s2 = [] then v6Finish [] acc2 ell
        else if s2.headD ' ' ≠ ':' ∨ s2.length = 1 then none
        else
          let s3 := s2.drop 1
          if s3.headD ' ' = ':' then
            if ell ≠ none then none
            else
              let s4 := s3.drop 1
              if s4 = [] then v6Finish [] acc2 (some acc2.length)
              else v6Loop fuel s4 acc2 (some acc2.length)
          else v6Loop fuel s3 acc2 ell

/-- Go `parseIPv6` (without zone handling): 16 bytes on success. -/
def parseIPv6Go (s : List Char) : Option (List Nat) :=
  if 2 ≤ s.length ∧ s.take 2 = [':', ':'] then
    if s.drop 2 = [] then some (List.replicate 16 0)
    else v6Loop 10 (s.drop 2) [] (some 0)
  else v6Loop 10 s [] none

/-- Dispatch of Go `net.ParseIP`: the first `.` or `:` decides v4 vs v6. -/
def ipClassify : List Char → Option Bool
  | [] => none
  | c :: r => if c = '.' then some true else if c = ':' then some false else ipClassify r

/-- Go `net.ParseIP`; `none` models a `nil` result. -/
def ParseIPGo (s : String) : Option (List Nat) :=
  match ipClassify s.data with
  | some true => parseIPv4Go s.data
  | some false => parseIPv6Go s.data
  | none => none

/-- Split at the first `/`, as `ParseCIDR` does. -/
def splitSlash : List Char → Option (List Char × List Char)
  | [] => none
  | c :: r =>
    if c = '/' then some ([], r)
    else
      match splitSlash r with
      | none => none
      | some (a, b) => some (c :: a, b)

/-- Go `net.CIDRMask n (8*bytes)`: `bytes` mask bytes with `n` leading ones. -/
def cidrMask (n : Nat) (bytes : Nat) : List Nat :=
  (List.range bytes).map fun i =>
    let ones := min 8 (n - 8 * i)
    256 - 2 ^ (8 - ones)

/-- Go `IP.Mask` for equal-length arguments: byte-wise AND. -/
def maskBytes (ip m : List Nat) : List Nat := List.zipWith (fun a b => a &&& b) ip m

/-- Go `net.IPNet`: network bytes (already masked) and mask bytes. -/
structure IPNet where
  ip : List Nat
  mask : List Nat
deriving DecidableEq

/-- Go `net.ParseCIDR`, keeping only the `*IPNet` result the plugin uses. -/
def ParseCIDRGo (s : String) : Option IPNet :=
  match splitSlash s.data with
  | none => none
  | some (addr, maskStr) =>
    let v4 := parseIPv4Go addr
    let ip : Option (List Nat) := match v4 with | some x => some x | none => parseIPv6Go addr
    let iplen : Nat := match v4 with | some _ => 4 | none => 16
    let r := dtoi maskStr
    match ip with
    | none => none
    | some x =>
      if ¬ r.2.2 ∨ r.2.1 ≠ maskStr.length ∨ 8 * iplen < r.1 then none
      else
        let m := cidrMask r.1 iplen
        some ⟨maskBytes x m, m⟩

/-- Go `IP.To4` as an `Option`: 4-byte form of an IPv4 or v4-mapped address. -/
def to4opt (ip : List Nat) : Option (List Nat) :=
  if ip.length = 4 then some ip
  else if ip.length = 16 ∧ ip.take 12 = [0, 0, 0, 0, 0, 0, 0, 0, 0, 0, 255, 255] then
    some (ip.drop 12)
  else none

/-- Go `networkNumberAndMask`: normalised (network, mask) pair of an `IPNet`. -/
def networkNumberAndMask (n : IPNet) : Option (List Nat × List Nat) :=
  match to4opt n.ip with
  | some ip4 =>
    if n.mask.length = 4 then some (ip4, n.mask)
    else if n.mask.length = 16 then some (ip4, n.mask.drop 12)
    else none
  | none =>
    if n.ip.length ≠ 16 then none
    else if n.mask.length = 16 then some (n.ip, n.mask)
    else none

/-- Byte-wise masked comparison, the loop of Go `IPNet.Contains`. -/
def maskedEq : List Nat → List Nat → List Nat → Bool
  | nn :: nns, m :: ms, b :: bs => (nn &&& m == b &&& m) && maskedEq nns ms bs
  | _, _, _ => true

/-- Go `(*net.IPNet).Contains`; `oip = none` models a `nil` IP argument
(which is what `net.ParseIP` yields on an unparsable address). -/
def containsGo (net : IPNet) (oip : Option (List Nat)) : Bool :=
  let p := (networkNumberAndMask net).getD ([], [])
  let ip0 := oip.getD []
  let ip := (to4opt ip0).getD ip0
  ip.length == p.1.length && maskedEq p.1 p.2 ip

/-! ### Model of the pieces of the Go `strings` package used by the plugin -/

/-- Index of the last occurrence of `c`, as in Go `strings.LastIndex`. -/
def lastIndexChar : List Char → Char → Option Nat
  | [], _ => none
  | a :: rest, c =>
    match lastIndexChar rest c with
    | some i => some (i + 1)
    | none => if a = c then some 0 else none

/-- Go `unicode.IsSpace` (the White_Space property). -/
def goIsSpace (c : Char) : Bool :=
  decide (c.toNat = 9 ∨ c.toNat = 10 ∨ c.toNat = 11 ∨ c.toNat = 12 ∨ c.toNat = 13 ∨
    c.toNat = 32 ∨ c.toNat = 0x85 ∨ c.toNat = 0xA0 ∨ c.toNat = 0x1680 ∨
    (0x2000 ≤ c.toNat ∧ c.toNat ≤ 0x200A) ∨ c.toNat = 0x2028 ∨ c.toNat = 0x2029 ∨
    c.toNat = 0x202F ∨ c.toNat = 0x205F ∨ c.toNat = 0x3000)

/-- Go `strings.TrimSpace`. -/
def trimSpaceGo (s : List Char) : List Char :=
  ((s.dropWhile goIsSpace).reverse.dropWhile goIsSpace).reverse

/-- Go `strings.Split s ","`: never returns an empty list. -/
def splitComma : List Char → List (List Char)
  | [] => [[]]
  | c :: rest =>
    if c = ',' then [] :: splitComma rest
    else
      match splitComma rest with
      | [] => [[c]]
      | p :: ps => (c :: p) :: ps

/-! ### The middleware itself (src/main.go) -/

/-- The `Config` struct. -/
structure Config where
  Enabled : Bool
  Filename : String
  TriggerFilename : String
  HttpResponseCode : Int
  HttpContentType : String
  IpAllowList : List String
  DenyUri : List String
deriving DecidableEq

/-- `CreateConfig`, the default configuration. -/
def CreateConfig : Config :=
  { Enabled := false, Filename := "", TriggerFilename := "",
    HttpResponseCode := 503, HttpContentType := "text/html; charset=utf-8",
    IpAllowList := [], DenyUri := [] }

/-- The `MaintenancePage` struct (the `next` handler and the never-used
`template` field are modelled outside the structure). -/
structure MaintenancePage where
  enabled : Bool
  filename : String
  triggerFilename : String
  httpResponseCode : Int
  HttpContentType : String
  IpAllowList : List String
  DenyUri : List String
  name : String
deriving DecidableEq

/-- `New`: fails exactly when `config.Filename` is empty, otherwise copies
the configuration into the handler. -/
def New (config : Config) (name : String) : Except String MaintenancePage :=
  if config.Filename.length = 0 then Except.error "filename cannot be empty"
  else Except.ok
    { enabled := config.Enabled, filename := config.Filename,
      triggerFilename := config.TriggerFilename,
      httpResponseCode := config.HttpResponseCode,
      HttpContentType := config.HttpContentType,
      IpAllowList := config.IpAllowList, DenyUri := config.DenyUri,
      name := name }

/-- The per-request view of `*http.Request`: the two header values read via
`Header.Get` (empty string = absent), `RemoteAddr`, and `URL.String()`. -/
structure Request where
  xRealIp : String
  xForwardedFor : String
  remoteAddr : String
  url : String
deriving DecidableEq

/-- Effect oracles for one request: `os.Stat` success, `os.ReadFile` result,
`regexp.Compile` (a compiled pattern is its match predicate), and whether
`rw.Write` succeeds. -/
structure Env where
  stat : String → Bool
  readFile : String → Option (List Nat)
  regexpCompile : String → Option (String → Bool)
  writeOk : Bool

/-- `maintenanceEnabled`. -/
def maintenanceEnabled (a : MaintenancePage) (stat : String → Bool) : Bool :=
  if !a.enabled then false
  else if a.enabled && a.triggerFilename.length == 0 then true
  else if stat a.triggerFilename then true
  else false

/-- `ipAddrFromRemoteAddr`. -/
def ipAddrFromRemoteAddr (s : String) : String :=
  match lastIndexChar s.data ':' with
  | none => s
  | some idx => String.mk (s.data.take idx)

/-- `requestGetRemoteAddress`. -/
def requestGetRemoteAddress (r : Request) : String :=
  if r.xRealIp = "" ∧ r.xForwardedFor = "" then
    ipAddrFromRemoteAddr r.remoteAddr
  else if r.xForwardedFor ≠ "" then
    String.mk (((splitComma r.xForwardedFor.data).map trimSpaceGo).headD [])
  else
    r.xRealIp

/-- The `for _, allowedIP := range a.IpAllowList` loop of `checkIgnore`. -/
def checkIgnoreLoop : List String → String → Bool
  | [], _ => true
  | entry :: rest, addr =>
    match ParseCIDRGo entry with
    | none => checkIgnoreLoop rest addr
    | some ipNet =>
      if containsGo ipNet (ParseIPGo addr) then false
      else checkIgnoreLoop rest addr

/-- `checkIgnore`. -/
def checkIgnore (a : MaintenancePage) (req : Request) : Bool :=
  let remoteAddr := requestGetRemoteAddress req
  if 0 < a.IpAllowList.length then checkIgnoreLoop a.IpAllowList remoteAddr
  else true

/-- The `for _, pattern := range a.DenyUri` loop of `checkDenyUri`. -/
def checkDenyUriLoop (compile : String → Option (String → Bool)) :
    List String → String → Bool
  | [], _ => false
  | pat :: rest, url =>
    match compile pat with
    | none => checkDenyUriLoop compile rest url
    | some m => if m url then true else checkDenyUriLoop compile rest url

/-- `checkDenyUri`. -/
def checkDenyUri (compile : String → Option (String → Bool))
    (a : MaintenancePage) (req : Request) : Bool :=
  if 0 < a.DenyUri.length then checkDenyUriLoop compile a.DenyUri req.url
  else false

/-- Everything this middleware wrote to the `http.ResponseWriter`. -/
structure ResponseState where
  headers : List (String × String)
  status : Option Int
  body : List Nat
deriving DecidableEq

/-- The state of the response writer before the middleware touches it. -/
def emptyResponse : ResponseState := { headers := [], status := none, body := [] }

/-- Observable outcome of `ServeHTTP`: the response state this middleware
produced, the request forwarded to the next handler (if any), and whether
the maintenance page was read (the serve attempt). -/
structure ServeResult where
  response : ResponseState
  next : Option Request
  readAttempted : Bool
deriving DecidableEq

/-- `ServeHTTP`.  `ServeHTTP` returns nothing in Go (no error can reach its
caller); the `ServeResult` records everything it did. -/
def ServeHTTP (a : MaintenancePage) (env : Env) (req : Request) : ServeResult :=
  if maintenanceEnabled a env.stat &&
      (checkIgnore a req || checkDenyUri env.regexpCompile a req) then
    match env.readFile a.filename with
    | some bytes =>
      let written : ResponseState :=
        { headers := [("Content-Type", a.HttpContentType)],
          status := some a.httpResponseCode, body := [] }
      if env.writeOk then
        { response := { written with body := bytes }, next := none, readAttempted := true }
      else
        { response := written, next := some req, readAttempted := true }
    | none => { response := emptyResponse, next := some req, readAttempted := true }
  else { response := emptyResponse, next := some req, readAttempted := false }

/-! ### Helper lemmas -/

theorem string_length_eq_zero_iff (s : String) : s.length = 0 ↔ s = "" := by
  constructor
  · intro h
    cases s with
    | mk d =>
      cases d with
      | nil => rfl
      | cons a l => simp [String.length] at h
  · intro h
    subst h
    rfl

theorem lastIndexChar_eq_none (l : List Char) (c : Char) :
    lastIndexChar l c = none ↔ c ∉ l := by
  induction l with
  | nil => simp [lastIndexChar]
  | cons a rest ih =>
    simp only [lastIndexChar]
    cases h : lastIndexChar rest c with
    | some i =>
      have hc : c ∈ rest := by
        by_contra hc
        rw [ih.2 hc] at h
        cases h
      simp [hc]
    | none =>
      by_cases hac : a = c
      · subst hac
        simp
      · rw [if_neg hac]
        exact iff_of_true rfl (by
          simp only [List.mem_cons, not_or]
          exact ⟨fun hca => hac hca.symm, ih.1 h⟩)

theorem lastIndexChar_take (l : List Char) (c : Char) (i : Nat)
    (h : lastIndexChar l c = some i) :
    ∃ suffix, l = l.take i ++ c :: suffix ∧ c ∉ suffix := by
  induction l generalizing i with
  | nil => cases h
  | cons a rest ih =>
    simp only [lastIndexChar] at h
    cases hr : lastIndexChar rest c with
    | some j =>
      rw [hr] at h
      obtain ⟨suffix, hsplit, hnot⟩ := ih j hr
      have hi : i = j + 1 := by
        injection h with h2
        omega
      subst hi
      refine ⟨suffix, ?_, hnot⟩
      rw [List.take_succ_cons, List.cons_append]
      exact congrArg (a :: ·) hsplit
    | none =>
      rw [hr] at h
      by_cases hac : a = c
      · rw [if_pos hac] at h
        injection h with h2
        subst h2
        subst hac
        exact ⟨rest, rfl, (lastIndexChar_eq_none rest a).1 hr⟩
      · rw [if_neg hac] at h
        cases h

theorem splitComma_head (l : List Char) :
    ∃ ps, splitComma l = l.takeWhile (fun x => x ≠ ',') :: ps := by
  induction l with
  | nil => exact ⟨[], rfl⟩
  | cons c rest ih =>
    by_cases hc : c = ','
    · subst hc
      refine ⟨splitComma rest, ?_⟩
      simp [splitComma, List.takeWhile]
    · obtain ⟨ps, hps⟩ := ih
      refine ⟨ps, ?_⟩
      simp [splitComma, hc, hps, List.takeWhile]

/-! ### Claims -/

/-- Claim C2: the trigger evaluation `maintenanceEnabled` returns false
whenever `enabled` is false; returns true whenever `enabled` is true and the
trigger filename is empty; and when `enabled` is true and a trigger filename
is configured it returns exactly the result of the `os.Stat` existence probe
(`stat` is true iff the probe succeeded, so every probe error, including
not-found, yields false). -/
theorem maintenanceEnabled_spec (a : MaintenancePage) (stat : String → Bool) :
    (a.enabled = false → maintenanceEnabled a stat = false) ∧
    (a.enabled = true → a.triggerFilename = "" → maintenanceEnabled a stat = true) ∧
    (a.enabled = true → a.triggerFilename ≠ "" →
      maintenanceEnabled a stat = stat a.triggerFilename) := by
  refine ⟨fun h => ?_, fun h h2 => ?_, fun h h2 => ?_⟩
  · simp [maintenanceEnabled, h]
  · simp [maintenanceEnabled, h, h2]
  · have hlen : a.triggerFilename.length ≠ 0 :=
      fun hl => h2 ((string_length_eq_zero_iff _).1 hl)
    simp only [maintenanceEnabled, h]
    rw [if_neg (by simp), if_neg (by simp [hlen])]
    cases stat a.triggerFilename <;> simp

/-- Witness for C2 at a concrete page whose trigger file probe fails. -/
theorem maintenanceEnabled_spec_witness :
    maintenanceEnabled ⟨true, "f", "trigger", 503, "ct", [], [], "n"⟩ (fun _ => false) = false := by
  have h := maintenanceEnabled_spec ⟨true, "f", "trigger", 503, "ct", [], [], "n"⟩ (fun _ => false)
  exact h.2.2 rfl (by decide)

/-- Claim C7: `New` returns an error exactly when the configured `Filename`
is empty; for every configuration with a non-empty `Filename` it succeeds
and the handler carries the configured status code, content type, allow-list
and deny-uri list unchanged. -/
theorem New_spec (config : Config) (name : String) :
    (config.Filename = "" → New config name = Except.error "filename cannot be empty") ∧
    (config.Filename ≠ "" → New config name = Except.ok
      { enabled := config.Enabled, filename := config.Filename,
        triggerFilename := config.TriggerFilename,
        httpResponseCode := config.HttpResponseCode,
        HttpContentType := config.HttpContentType,
        IpAllowList := config.IpAllowList, DenyUri := config.DenyUri,
        name := name }) := by
  constructor
  · intro h
    simp [New, h]
  · intro h
    have hlen : config.Filename.length ≠ 0 :=
      fun hl => h ((string_length_eq_zero_iff _).1 hl)
    simp [New, hlen]

/-- Witness for C7 at a concrete configuration with a non-empty filename. -/
theorem New_spec_witness :
    New ⟨true, "maintenance.html", "", 503, "text/html", [], []⟩ "mw" =
      Except.ok ⟨true, "maintenance.html", "", 503, "text/html", [], [], "mw"⟩ := by
  have h := New_spec ⟨true, "maintenance.html", "", 503, "text/html", [], []⟩ "mw"
  exact h.2 (by decide)

/-- Claim C3: the resolved client address is the peer address with
everything after its last colon stripped (unchanged when it has no colon)
when both the "X-Real-Ip" and "X-Forwarded-For" headers are empty; the
first comma-separated segment of "X-Forwarded-For", whitespace-trimmed,
whenever that header is non-empty (priority over "X-Real-Ip"); and the
"X-Real-Ip" value verbatim otherwise. -/
theorem requestGetRemoteAddress_spec (req : Request) :
    (req.xRealIp = "" → req.xForwardedFor = "" →
      (':' ∉ req.remoteAddr.data → requestGetRemoteAddress req = req.remoteAddr) ∧
      (':' ∈ req.remoteAddr.data →
        ∃ suffix, req.remoteAddr.data = (requestGetRemoteAddress req).data ++ ':' :: suffix ∧
          ':' ∉ suffix)) ∧
    (req.xForwardedFor ≠ "" →
      requestGetRemoteAddress req =
        String.mk (trimSpaceGo (req.xForwardedFor.data.takeWhile (fun x => x ≠ ',')))) ∧
    (req.xRealIp ≠ "" → req.xForwardedFor = "" → requestGetRemoteAddress req = req.xRealIp) := by
  refine ⟨fun h1 h2 => ?_, fun h2 => ?_, fun h1 h2 => ?_⟩
  · have hres : requestGetRemoteAddress req = ipAddrFromRemoteAddr req.remoteAddr := by
      simp [requestGetRemoteAddress, h1, h2]
    constructor
    · intro hnc
      rw [hres]
      unfold ipAddrFromRemoteAddr
      rw [(lastIndexChar_eq_none _ _).2 hnc]
    · intro hc
      cases hli : lastIndexChar req.remoteAddr.data ':' with
      | none => exact absurd ((lastIndexChar_eq_none _ _).1 hli) (by simp [hc])
      | some i =>
        obtain ⟨suffix, hsplit, hnot⟩ := lastIndexChar_take _ _ _ hli
        refine ⟨suffix, ?_, hnot⟩
        rw [hres]
        unfold ipAddrFromRemoteAddr
        rw [hli]
        exact hsplit
  · obtain ⟨ps, hps⟩ := splitComma_head req.xForwardedFor.data
    simp [requestGetRemoteAddress, h2, hps]
  · simp [requestGetRemoteAddress, h1, h2]

/-- Witness for C3: the no-headers colon-free case at a concrete request. -/
theorem requestGetRemoteAddress_spec_witness :
    requestGetRemoteAddress ⟨"", "", "localhost", "/"⟩ = "localhost" :=
  ((requestGetRemoteAddress_spec ⟨"", "", "localhost", "/"⟩).1 rfl rfl).1 (by decide)

/-! ### Well-formedness of parsed addresses and networks -/

theorem parseIPv4Go_length {s : List Char} {ip : List Nat}
    (h : parseIPv4Go s = some ip) : ip.length = 4 := by
  simp only [parseIPv4Go, bind, Option.bind_eq_some, Option.pure_def] at h
  obtain ⟨⟨a, s1⟩, h1, s1b, h2, ⟨b, s2⟩, h3, s2b, h4, ⟨c, s3⟩, h5, s3b, h6, ⟨d, s4⟩, h7, h8⟩ := h
  split at h8
  · cases h8
    rfl
  · cases h8

theorem v6Finish_length {s : List Char} {acc : List Nat} {ell : Option Nat} {ip : List Nat}
    (h : v6Finish s acc ell = some ip) : ip.length = 16 := by
  unfold v6Finish at h
  split at h
  · cases h
  · split at h
    · next hlt =>
      cases ell with
      | none => cases h
      | some e =>
        simp only at h
        split at h
        · next hle =>
          cases h
          simp only [List.length_append, List.length_take, List.length_replicate,
            List.length_drop]
          omega
        · cases h
    · split at h
      · next heq =>
        cases ell with
        | none =>
          cases h
          exact heq
        | some e => cases h
      · cases h

theorem v6Loop_length :
    ∀ (fuel : Nat) (s : List Char) (acc : List Nat) (ell : Option Nat) (ip : List Nat),
      v6Loop fuel s acc ell = some ip → ip.length = 16 := by
  intro fuel
  induction fuel with
  | zero =>
    intro s acc ell ip h
    cases h
  | succ n ih =>
    intro s acc ell ip h
    unfold v6Loop at h
    split at h
    · exact v6Finish_length h
    · simp only at h
      split at h
      · cases h
      · split at h
        · split at h
          · cases h
          · split at h
            · cases h
            · exact v6Finish_length h
        · split at h
          · exact v6Finish_length h
          · split at h
            · cases h
            · split at h
              · split at h
                · cases h
                · split at h
                  · exact v6Finish_length h
                  · exact ih _ _ _ _ h
              · exact ih _ _ _ _ h

theorem parseIPv6Go_length {s : List Char} {ip : List Nat}
    (h : parseIPv6Go s = some ip) : ip.length = 16 := by
  unfold parseIPv6Go at h
  split at h
  · split at h
    · cases h
      simp
    · exact v6Loop_length _ _ _ _ _ h
  · exact v6Loop_length _ _ _ _ _ h

theorem cidrMask_length (n bytes : Nat) : (cidrMask n bytes).length = bytes := by
  simp [cidrMask]

theorem maskBytes_length (ip m : List Nat) :
    (maskBytes ip m).length = min ip.length m.length := by
  simp [maskBytes]

theorem ParseCIDRGo_shape {s : String} {n : IPNet} (h : ParseCIDRGo s = some n) :
    (n.ip.length = 4 ∧ n.mask.length = 4) ∨ (n.ip.length = 16 ∧ n.mask.length = 16) := by
  unfold ParseCIDRGo at h
  cases hsp : splitSlash s.data with
  | none =>
    rw [hsp] at h
    cases h
  | some p =>
    rw [hsp] at h
    obtain ⟨addr, maskStr⟩ := p
    cases hv4 : parseIPv4Go addr with
    | some x =>
      simp only [hv4] at h
      split at h
      · cases h
      · cases h
        left
        refine ⟨?_, cidrMask_length _ _⟩
        simp [maskBytes_length, cidrMask_length, parseIPv4Go_length hv4]
    | none =>
      simp only [hv4] at h
      cases hv6 : parseIPv6Go addr with
      | none =>
        rw [hv6] at h
        cases h
      | some x =>
        simp only [hv6] at h
        split at h
        · cases h
        · cases h
          right
          refine ⟨?_, cidrMask_length _ _⟩
          simp [maskBytes_length, cidrMask_length, parseIPv6Go_length hv6]

theorem to4opt_length {ip y : List Nat} (h : to4opt ip = some y) : y.length = 4 := by
  unfold to4opt at h
  split at h
  · next h4 =>
    cases h
    exact h4
  · split at h
    · next h16 =>
      cases h
      simp [List.length_drop, h16.1]
    · cases h

theorem containsGo_none_of_parsed {s : String} {n : IPNet} (h : ParseCIDRGo s = some n) :
    containsGo n none = false := by
  have hto : to4opt ([] : List Nat) = none := rfl
  rcases ParseCIDRGo_shape h with ⟨hip, hm⟩ | ⟨hip, hm⟩
  · have h4 : to4opt n.ip = some n.ip := by
      unfold to4opt
      rw [if_pos hip]
    simp [containsGo, networkNumberAndMask, h4, hm, hip, hto]
  · cases hto2 : to4opt n.ip with
    | some y =>
      have hy := to4opt_length hto2
      simp [containsGo, networkNumberAndMask, hto2, hm, hy, hto]
    | none =>
      simp [containsGo, networkNumberAndMask, hto2, hip, hm, hto]

/-! ### Lemmas about the allow-list and deny-uri loops -/

theorem checkIgnoreLoop_eq_any (list : List String) (addr : String) :
    checkIgnoreLoop list addr =
      !(list.any fun entry =>
        match ParseCIDRGo entry with
        | some ipNet => containsGo ipNet (ParseIPGo addr)
        | none => false) := by
  induction list with
  | nil => rfl
  | cons e rest ih =>
    simp only [checkIgnoreLoop, List.any_cons]
    cases he : ParseCIDRGo e with
    | none => simp [ih]
    | some ipNet =>
      cases hc : containsGo ipNet (ParseIPGo addr) <;> simp [hc, ih]

theorem checkIgnoreLoop_of_unparsable {addr : String} (h : ParseIPGo addr = none)
    (list : List String) : checkIgnoreLoop list addr = true := by
  induction list with
  | nil => rfl
  | cons e rest ih =>
    cases he : ParseCIDRGo e with
    | none => simp [checkIgnoreLoop, he, ih]
    | some ipNet =>
      simp [checkIgnoreLoop, he, h, containsGo_none_of_parsed he, ih]

theorem checkDenyUriLoop_eq_any (compile : String → Option (String → Bool))
    (list : List String) (url : String) :
    checkDenyUriLoop compile list url =
      (list.any fun pat =>
        match compile pat with
        | some m => m url
        | none => false) := by
  induction list with
  | nil => rfl
  | cons pat rest ih =>
    simp only [checkDenyUriLoop, List.any_cons]
    cases hp : compile pat with
    | none => simp [ih]
    | some m =>
      cases hm : m url <;> simp [hm, ih]

/-- Claim C4: `checkIgnore` returns true for every address when the
allow-list is empty; when non-empty it scans entries in order, skipping
entries that do not parse as CIDR, returns false exactly when some
successfully-parsed range contains the parsed address, and returns true
whenever the resolved address fails to parse as an IP. -/
theorem checkIgnore_spec (a : MaintenancePage) (req : Request) :
    (a.IpAllowList = [] → checkIgnore a req = true) ∧
    (checkIgnore a req =
      !(a.IpAllowList.any fun entry =>
        match ParseCIDRGo entry with
        | some ipNet => containsGo ipNet (ParseIPGo (requestGetRemoteAddress req))
        | none => false)) ∧
    (ParseIPGo (requestGetRemoteAddress req) = none → checkIgnore a req = true) := by
  refine ⟨fun h => ?_, ?_, fun h => ?_⟩
  · simp [checkIgnore, h]
  · cases hl : a.IpAllowList with
    | nil => simp [checkIgnore, hl]
    | cons e rest =>
      simp only [checkIgnore, hl, List.length_cons]
      rw [if_pos (by omega)]
      exact checkIgnoreLoop_eq_any _ _
  · unfold checkIgnore
    split
    · exact checkIgnoreLoop_of_unparsable h _
    · rfl

/-- Witness for C4: an unparsable resolved address against a non-empty
allow-list is still ignored. -/
theorem checkIgnore_spec_witness :
    checkIgnore ⟨true, "f", "", 503, "ct", ["10.0.0.0/8"], [], "n"⟩
      ⟨"", "", "not-an-ip", "/"⟩ = true :=
  (checkIgnore_spec ⟨true, "f", "", 503, "ct", ["10.0.0.0/8"], [], "n"⟩
    ⟨"", "", "not-an-ip", "/"⟩).2.2 (by decide)

/-- Claim C5: `checkDenyUri` returns false when the deny-uri list is empty;
otherwise it scans patterns in order, a pattern that fails to compile is
skipped (never a match, never an abort), and the result is true exactly when
some compiled pattern matches the request's URI string. -/
theorem checkDenyUri_spec (compile : String → Option (String → Bool))
    (a : MaintenancePage) (req : Request) :
    (a.DenyUri = [] → checkDenyUri compile a req = false) ∧
    (checkDenyUri compile a req =
      (a.DenyUri.any fun pat =>
        match compile pat with
        | some m => m req.url
        | none => false)) := by
  refine ⟨fun h => ?_, ?_⟩
  · simp [checkDenyUri, h]
  · cases hl : a.DenyUri with
    | nil => simp [checkDenyUri, hl]
    | cons pat rest =>
      simp only [checkDenyUri, hl, List.length_cons]
      rw [if_pos (by omega)]
      exact checkDenyUriLoop_eq_any _ _ _

/-- A regexp-compile oracle that rejects every pattern. -/
def compileNone : String → Option (String → Bool) := fun _ => none

/-- Witness for C5 at an empty deny-uri list. -/
theorem checkDenyUri_spec_witness :
    checkDenyUri compileNone ⟨true, "f", "", 503, "ct", [], [], "n"⟩
      ⟨"", "", "1.2.3.4:1", "/api"⟩ = false :=
  (checkDenyUri_spec compileNone ⟨true, "f", "", 503, "ct", [], [], "n"⟩
    ⟨"", "", "1.2.3.4:1", "/api"⟩).1 rfl

/-- Claim C10: `New` performs no validation of the allow-list or deny-uri
entries: every configuration with a non-empty `Filename` constructs
successfully, with both lists carried verbatim however malformed; a
malformed entry is only detected, and skipped, by the per-request loops. -/
theorem New_noValidation (config : Config) (name : String) (h : config.Filename ≠ "") :
    (∃ mp, New config name = Except.ok mp ∧ mp.IpAllowList = config.IpAllowList ∧
      mp.DenyUri = config.DenyUri) ∧
    (∀ entry rest addr, ParseCIDRGo entry = none →
      checkIgnoreLoop (entry :: rest) addr = checkIgnoreLoop rest addr) ∧
    (∀ (compile : String → Option (String → Bool)) pat rest url, compile pat = none →
      checkDenyUriLoop compile (pat :: rest) url = checkDenyUriLoop compile rest url) := by
  refine ⟨?_, ?_, ?_⟩
  · have hlen : config.Filename.length ≠ 0 :=
      fun hl => h ((string_length_eq_zero_iff _).1 hl)
    refine ⟨{ enabled := config.Enabled, filename := config.Filename,
              triggerFilename := config.TriggerFilename,
              httpResponseCode := config.HttpResponseCode,
              HttpContentType := config.HttpContentType,
              IpAllowList := config.IpAllowList, DenyUri := config.DenyUri,
              name := name }, ?_, rfl, rfl⟩
    simp [New, hlen]
  · intro entry rest addr he
    simp [checkIgnoreLoop, he]
  · intro compile pat rest url hp
    simp [checkDenyUriLoop, hp]

/-- Witness for C10: a malformed CIDR and an uncompilable pattern do not
block construction and are skipped at evaluation time. -/
theorem New_noValidation_witness :
    (∃ mp, New ⟨true, "f", "", 503, "ct", ["not-a-cidr"], ["("]⟩ "n" = Except.ok mp ∧
      mp.IpAllowList = ["not-a-cidr"] ∧ mp.DenyUri = ["("]) ∧
    checkIgnoreLoop ["not-a-cidr", "10.0.0.0/8"] "10.0.0.5" =
      checkIgnoreLoop ["10.0.0.0/8"] "10.0.0.5" ∧
    checkDenyUriLoop compileNone ["("] "/api" = checkDenyUriLoop compileNone [] "/api" := by
  have h := New_noValidation ⟨true, "f", "", 503, "ct", ["not-a-cidr"], ["("]⟩ "n" (by decide)
  exact ⟨h.1, h.2.1 "not-a-cidr" ["10.0.0.0/8"] "10.0.0.5" (by decide),
    h.2.2 compileNone "(" [] "/api" rfl⟩

/-- Claim C1: `ServeHTTP` attempts to serve the maintenance page (reads the
content source) iff `maintenanceEnabled` returns true and `checkIgnore` or
`checkDenyUri` returns true; when the gate is false the request is forwarded
to the next handler with no maintenance response written. -/
theorem ServeHTTP_gate (a : MaintenancePage) (env : Env) (req : Request) :
    ((ServeHTTP a env req).readAttempted =
      (maintenanceEnabled a env.stat &&
        (checkIgnore a req || checkDenyUri env.regexpCompile a req))) ∧
    ((maintenanceEnabled a env.stat &&
        (checkIgnore a req || checkDenyUri env.regexpCompile a req)) = false →
      ServeHTTP a env req =
        { response := emptyResponse, next := some req, readAttempted := false }) := by
  constructor
  · cases hcond : (maintenanceEnabled a env.stat &&
        (checkIgnore a req || checkDenyUri env.regexpCompile a req)) with
    | false => simp [ServeHTTP, hcond]
    | true =>
      simp only [ServeHTTP, hcond, if_true]
      cases henv : env.readFile a.filename with
      | none => simp [henv]
      | some bytes =>
        simp only [henv]
        split <;> rfl
  · intro h
    simp [ServeHTTP, h]

/-- Witness for C1: a disabled page forwards with nothing written. -/
theorem ServeHTTP_gate_witness :
    ServeHTTP ⟨false, "f", "", 503, "ct", [], [], "n"⟩
      ⟨fun _ => true, fun _ => some [104], fun _ => none, true⟩ ⟨"", "", "1.2.3.4:1", "/"⟩ =
      { response := emptyResponse, next := some ⟨"", "", "1.2.3.4:1", "/"⟩,
        readAttempted := false } :=
  (ServeHTTP_gate ⟨false, "f", "", 503, "ct", [], [], "n"⟩
    ⟨fun _ => true, fun _ => some [104], fun _ => none, true⟩
    ⟨"", "", "1.2.3.4:1", "/"⟩).2 rfl

/-- Claim C6: when the gate says to show the page but the content read
fails, or the body write fails, the request is forwarded to the next handler
(the model forwards exactly one request, and `ServeHTTP` has no error
channel at all, matching the `func (... ) ServeHTTP(...)` signature). -/
theorem ServeHTTP_failOpen (a : MaintenancePage) (env : Env) (req : Request)
    (hshow : (maintenanceEnabled a env.stat &&
      (checkIgnore a req || checkDenyUri env.regexpCompile a req)) = true)
    (hfail : env.readFile a.filename = none ∨ env.writeOk = false) :
    (ServeHTTP a env req).next = some req := by
  simp only [ServeHTTP, hshow, if_true]
  cases henv : env.readFile a.filename with
  | none => simp [henv]
  | some bytes =>
    rcases hfail with hr | hw
    · rw [henv] at hr
      cases hr
    · simp [henv, hw]

/-- Witness for C6: unreadable content with the gate true still forwards. -/
theorem ServeHTTP_failOpen_witness :
    (ServeHTTP ⟨true, "f", "", 503, "ct", [], [], "n"⟩
      ⟨fun _ => true, fun _ => none, fun _ => none, true⟩
      ⟨"", "", "1.2.3.4:1", "/"⟩).next = some ⟨"", "", "1.2.3.4:1", "/"⟩ :=
  ServeHTTP_failOpen ⟨true, "f", "", 503, "ct", [], [], "n"⟩
    ⟨fun _ => true, fun _ => none, fun _ => none, true⟩
    ⟨"", "", "1.2.3.4:1", "/"⟩ rfl (Or.inl rfl)

/-- Counterexample to claim C8 as stated: when the content read succeeds but
the body write fails, the middleware both forwards and has already written
the status code and the content-type header, so neither "fully-written
response with no further processing" nor "forwarded with nothing written to
the response beforehand" describes the outcome. -/
theorem ServeHTTP_partialWrite_cex :
    ¬ (((ServeHTTP ⟨true, "m.html", "", 503, "text/html", [], [], "n"⟩
          ⟨fun _ => true, fun _ => some [104], fun _ => none, false⟩
          ⟨"", "", "1.2.3.4:1", "/"⟩).next = none) ∨
       ((ServeHTTP ⟨true, "m.html", "", 503, "text/html", [], [], "n"⟩
          ⟨fun _ => true, fun _ => some [104], fun _ => none, false⟩
          ⟨"", "", "1.2.3.4:1", "/"⟩).response = emptyResponse)) := by
  decide

/-- Claim C8 (amended): per request exactly one of two outcomes occurs:
either (a) a fully-written maintenance response (configured status code, one
content-type header, the bytes that were read) with no forwarding, or (b) a
forwarded invocation of the next handler with the original request; in case
(b) nothing has been written to the response beforehand, except when the
body write fails after a successful content read, in which case the status
code and the content-type header have already been written. -/
theorem ServeHTTP_outcomes (a : MaintenancePage) (env : Env) (req : Request) :
    ((ServeHTTP a env req).next = none ∧
      ∃ bytes, env.readFile a.filename = some bytes ∧
        (ServeHTTP a env req).response =
          { headers := [("Content-Type", a.HttpContentType)],
            status := some a.httpResponseCode, body := bytes }) ∨
    ((ServeHTTP a env req).next = some req ∧
      ((ServeHTTP a env req).response = emptyResponse ∨
        (ServeHTTP a env req).response =
          { headers := [("Content-Type", a.HttpContentType)],
            status := some a.httpResponseCode, body := [] })) := by
  cases hcond : (maintenanceEnabled a env.stat &&
      (checkIgnore a req || checkDenyUri env.regexpCompile a req)) with
  | false =>
    right
    simp [ServeHTTP, hcond]
  | true =>
    cases henv : env.readFile a.filename with
    | none =>
      right
      simp [ServeHTTP, hcond, henv]
    | some bytes =>
      cases hw : env.writeOk with
      | true =>
        refine Or.inl ⟨?_, bytes, rfl, ?_⟩ <;> simp [ServeHTTP, hcond, henv, hw]
      | false =>
        right
        simp [ServeHTTP, hcond, henv, hw]

/-! ### Bracketed-IPv6 peer addresses (claim C9) -/

theorem dtoi_bracket (l : List Char) : dtoi ('[' :: l) = (0, 0, false) := by
  have h : ¬('0' ≤ '[' ∧ '[' ≤ '9') := by decide
  simp [dtoi, dtoiGo, h]

theorem parseV4Field_bracket (l : List Char) : parseV4Field ('[' :: l) = none := by
  simp [parseV4Field, dtoi_bracket]

theorem parseIPv4Go_bracket (l : List Char) : parseIPv4Go ('[' :: l) = none := by
  simp [parseIPv4Go, parseV4Field_bracket]

theorem xtoi_bracket (l : List Char) : xtoi ('[' :: l) = (0, 0, false) := by
  have h : hexDigit '[' = none := by decide
  simp [xtoi, xtoiGo, h]

theorem v6Loop_bracket (fuel : Nat) (l : List Char) (ell : Option Nat) :
    v6Loop (fuel + 1) ('[' :: l) [] ell = none := by
  simp [v6Loop, xtoi_bracket]

theorem parseIPv6Go_bracket (l : List Char) : parseIPv6Go ('[' :: l) = none := by
  have h2 : ¬(2 ≤ ('[' :: l).length ∧ ('[' :: l).take 2 = [':', ':']) := by
    rintro ⟨-, hcontra⟩
    simp [List.take] at hcontra
  unfold parseIPv6Go
  rw [if_neg h2]
  exact v6Loop_bracket 9 l none

theorem ParseIPGo_bracket {s : String} {l : List Char} (hs : s.data = '[' :: l) :
    ParseIPGo s = none := by
  have hcl : ipClassify ('[' :: l) = ipClassify l := by
    have hd : ¬('[' = '.') := by decide
    have hc : ¬('[' = ':') := by decide
    simp [ipClassify, hd, hc]
  cases hb : ipClassify l with
  | none => simp [ParseIPGo, hs, hcl, hb]
  | some b =>
    cases b
    · simp [ParseIPGo, hs, hcl, hb, parseIPv6Go_bracket]
    · simp [ParseIPGo, hs, hcl, hb, parseIPv4Go_bracket]

theorem lastIndexChar_append (l p : List Char) (c : Char) (hp : c ∉ p) :
    lastIndexChar (l ++ c :: p) c = some l.length := by
  induction l with
  | nil =>
    simp only [List.nil_append, lastIndexChar]
    rw [(lastIndexChar_eq_none p c).2 hp]
    simp
  | cons a rest ih =>
    have hstep : lastIndexChar ((a :: rest) ++ c :: p) c =
        match lastIndexChar (rest ++ c :: p) c with
        | some i => some (i + 1)
        | none => if a = c then some 0 else none := rfl
    rw [hstep, ih]
    rfl

/-- Counterexample to claim C9's example value: for peer "[::1]:8080" with
no forwarding headers, the resolved address is "[::1]" (the closing bracket
survives the port strip), not "[::1". -/
theorem bracketedV6_cex :
    requestGetRemoteAddress ⟨"", "", "[::1]:8080", "/"⟩ = "[::1]" ∧
    requestGetRemoteAddress ⟨"", "", "[::1]:8080", "/"⟩ ≠ "[::1" := by
  decide

/-- Claim C9 (amended): for every request whose peer address is a bracketed
IPv6 address with port ("[" ++ g ++ "]:" ++ port, the port colon-free) and
whose forwarding headers are both empty, the resolved address keeps the
brackets — it is "[" ++ g ++ "]" (for "[::1]:8080", "[::1]") — which never
parses as an IP, so `checkIgnore` returns true for every allow-list: such
callers can never be exempted from the maintenance page via the peer
address. -/
theorem checkIgnore_bracketedV6 (a : MaintenancePage) (req : Request) (g p : String)
    (h1 : req.xRealIp = "") (h2 : req.xForwardedFor = "")
    (h3 : req.remoteAddr = "[" ++ g ++ "]:" ++ p) (h4 : ':' ∉ p.data) :
    requestGetRemoteAddress req = "[" ++ g ++ "]" ∧
    ParseIPGo ("[" ++ g ++ "]") = none ∧
    checkIgnore a req = true := by
  have hdata : req.remoteAddr.data = ('[' :: g.data ++ [']']) ++ ':' :: p.data := by
    rw [h3]
    simp [String.data_append]
  have hbr : ("[" ++ g ++ "]").data = '[' :: g.data ++ [']'] := by
    simp [String.data_append]
  have hli : lastIndexChar req.remoteAddr.data ':' = some ('[' :: g.data ++ [']']).length := by
    rw [hdata]
    exact lastIndexChar_append _ _ _ h4
  have hres : requestGetRemoteAddress req = "[" ++ g ++ "]" := by
    have h0 : requestGetRemoteAddress req = ipAddrFromRemoteAddr req.remoteAddr := by
      simp [requestGetRemoteAddress, h1, h2]
    rw [h0]
    unfold ipAddrFromRemoteAddr
    rw [hli]
    apply String.ext
    show req.remoteAddr.data.take (('[' :: g.data ++ [']']).length) = ("[" ++ g ++ "]").data
    rw [hdata, List.take_left, hbr]
  have hnone : ParseIPGo ("[" ++ g ++ "]") = none := ParseIPGo_bracket hbr
  refine ⟨hres, hnone, ?_⟩
  have hna : ParseIPGo (requestGetRemoteAddress req) = none := by
    rw [hres]
    exact hnone
  simp only [checkIgnore]
  split
  · exact checkIgnoreLoop_of_unparsable hna _
  · rfl

/-- Witness for C9 (amended) at peer "[::1]:8080" and a non-empty allow-list
that even names the loopback IPv6 range. -/
theorem checkIgnore_bracketedV6_witness :
    requestGetRemoteAddress ⟨"", "", "[::1]:8080", "/"⟩ = "[" ++ "::1" ++ "]" ∧
    ParseIPGo ("[" ++ "::1" ++ "]") = none ∧
    checkIgnore ⟨true, "f", "", 503, "ct", ["::1/128", "0.0.0.0/0"], [], "n"⟩
      ⟨"", "", "[::1]:8080", "/"⟩ = true :=
  checkIgnore_bracketedV6 ⟨true, "f", "", 503, "ct", ["::1/128", "0.0.0.0/0"], [], "n"⟩
    ⟨"", "", "[::1]:8080", "/"⟩ "::1" "8080" rfl rfl (by decide) (by decide)

end Traefik
